import Mathlib

/-
Verification of the straddle backtest engine.

Shallow embedding of the core of the repository:
  - src/app_config/app_config.py   (StraddleConfig)
  - src/strategy/straddle_strategy.py  (StraddleStrategy: calculate_atm_strike, run, get_minute_pnl)
  - src/main.py  (BacktestEngine.run_backtest re-entry loop, BacktestEngine.summary metrics)

Modelling conventions:
  - Prices and monetary amounts are rationals (Python floats are modelled exactly
    over the rationals; no claim here depends on rounding of binary floats).
  - Bar timestamps are natural numbers (minute indices); the entry and exit times
    of the config, strings "HH:MM:SS" in Python, become minute indices too.
  - pandas DataFrames of bars become lists of records in row order; the pandas
    inner merge on unique keys preserves the order of the left keys, which the
    join below reproduces (the data model states duplicate timestamps do not occur).
  - Python exceptions that abort a single trade simulation become Except.error.
  - The external data collaborators (Breeze connector, DataLoader) are modelled
    as an environment function supplying each attempt with its outcome.
-/

/- The rational arithmetic of Batteries is marked irreducible, which blocks
   kernel evaluation of concrete instances; reopening it lets `decide`
   evaluate the embedded functions on concrete inputs. -/
unseal Rat.mul Rat.add Rat.sub Rat.inv

/- Exit reasons: the Python code uses the strings "StopLoss", "TakeProfit"
   and "Exit" (the default, i.e. end of the trading window). -/
inductive ExitReason where
  | stopLoss
  | takeProfit
  | endOfWindow
deriving DecidableEq, Repr

/- One minute bar: {timestamp, close}. -/
structure Bar where
  dt : Nat
  close : Rat
deriving DecidableEq, Repr

/- StraddleConfig from src/app_config/app_config.py.  The Breeze credential
   fields (api_key, api_secret, session_token) and strike_selection only feed
   the external collaborator and are omitted.  Defaults mirror the dataclass
   defaults; lot_multiplier is not a dataclass field, the strategy reads it
   with getattr(config, "lot_multiplier", 1). -/
structure StraddleConfig where
  index : String := "NIFTY"
  entry_time : Nat := 0
  exit_time : Nat := 0
  lot_size : Int := 75
  stop_loss_pct : Rat := 25
  target_profit_pct : Option Rat := none
  max_loss_per_day : Rat := 10000
  per_leg : Bool := true
  max_reentries : Nat := 10
  reentry_delay_minutes : Nat := 5
  commission_per_lot : Rat := 20
  slippage_points : Rat := 3/10
  lot_multiplier : Rat := 1
deriving DecidableEq, Repr

/- Python float modulus a % b for b > 0 (result in [0, b)). -/
def pyMod (a b : Rat) : Rat := a - b * (⌊a / b⌋ : Int)

/- Python int(): truncation toward zero. -/
def pyInt (x : Rat) : Int := if 0 ≤ x then ⌊x⌋ else ⌈x⌉

/- The strike interval table of StraddleStrategy.calculate_atm_strike:
   strike_intervals.get(self.index, 50). -/
def strikeInterval (index : String) : Nat :=
  if index = "NIFTY" then 50
  else if index = "BANKNIFTY" then 100
  else if index = "FINNIFTY" then 50
  else if index = "MIDCPNIFTY" then 25
  else 50

/- StraddleStrategy.calculate_atm_strike (src/strategy/straddle_strategy.py,
   lines 28-45): remainder = underlying_price % steps; round up to the next
   interval boundary when remainder >= steps / 2, else round down. -/
def calculate_atm_strike (index : String) (underlying_price : Rat) : Int :=
  let steps : Rat := (strikeInterval index : Nat)
  let remainder := pyMod underlying_price steps
  if steps / 2 ≤ remainder then pyInt (underlying_price - remainder + steps)
  else pyInt (underlying_price - remainder)

lemma pyInt_intCast (n : Int) : pyInt ((n : Rat)) = n := by
  unfold pyInt
  split
  · exact Int.floor_intCast n
  · exact Int.ceil_intCast n

lemma sub_pyMod_eq (u v : Rat) : u - pyMod u v = v * (⌊u / v⌋ : Int) := by
  unfold pyMod; ring

/-- C7: for every positive underlying price, calculate_atm_strike returns
underlying − remainder + interval when the remainder (underlying mod interval)
is at least half the interval, and underlying − remainder otherwise; the
interval is 50 for NIFTY and FINNIFTY, 100 for BANKNIFTY, 25 for MIDCPNIFTY
and 50 for any unrecognized instrument class; in particular for NIFTY,
underlying 24980 yields strike 25000 and 24960 yields 24950. -/
theorem atm_strike_rounding :
    (∀ (index : String) (u : Rat), 0 < u →
      ((calculate_atm_strike index u : Int) : Rat) =
        (if ((strikeInterval index : Nat) : Rat) / 2 ≤ pyMod u ((strikeInterval index : Nat) : Rat) then
          u - pyMod u ((strikeInterval index : Nat) : Rat) + ((strikeInterval index : Nat) : Rat)
        else u - pyMod u ((strikeInterval index : Nat) : Rat)))
    ∧ strikeInterval "NIFTY" = 50
    ∧ strikeInterval "BANKNIFTY" = 100
    ∧ strikeInterval "FINNIFTY" = 50
    ∧ strikeInterval "MIDCPNIFTY" = 25
    ∧ (∀ idx, idx ≠ "NIFTY" → idx ≠ "BANKNIFTY" → idx ≠ "FINNIFTY" →
        idx ≠ "MIDCPNIFTY" → strikeInterval idx = 50)
    ∧ calculate_atm_strike "NIFTY" 24980 = 25000
    ∧ calculate_atm_strike "NIFTY" 24960 = 24950 := by
  refine ⟨?_, rfl, rfl, rfl, rfl, ?_, by decide, by decide⟩
  · intro index u _
    set s : Rat := ((strikeInterval index : Nat) : Rat) with hs
    have lhs_eq : calculate_atm_strike index u =
        if s / 2 ≤ pyMod u s then pyInt (u - pyMod u s + s) else pyInt (u - pyMod u s) := rfl
    rw [lhs_eq]
    by_cases h : s / 2 ≤ pyMod u s
    · rw [if_pos h, if_pos h]
      have h1 : u - pyMod u s + s = (((strikeInterval index : Int) * ⌊u / s⌋
          + (strikeInterval index : Int) : Int) : Rat) := by
        rw [sub_pyMod_eq u s]
        push_cast [hs]
        ring
      rw [h1, pyInt_intCast]
    · rw [if_neg h, if_neg h]
      have h1 : u - pyMod u s = (((strikeInterval index : Int) * ⌊u / s⌋ : Int) : Rat) := by
        rw [sub_pyMod_eq u s]
        push_cast [hs]
        ring
      rw [h1, pyInt_intCast]
  · intro idx h1 h2 h3 h4
    unfold strikeInterval
    simp [h1, h2, h3, h4]

/-- Witness for atm_strike_rounding: the rounding formula instantiated at
underlying 24980 for NIFTY. -/
theorem atm_strike_rounding_witness :
    ((calculate_atm_strike "NIFTY" 24980 : Int) : Rat) =
      (if ((strikeInterval "NIFTY" : Nat) : Rat) / 2 ≤
            pyMod 24980 ((strikeInterval "NIFTY" : Nat) : Rat) then
        24980 - pyMod 24980 ((strikeInterval "NIFTY" : Nat) : Rat)
          + ((strikeInterval "NIFTY" : Nat) : Rat)
      else 24980 - pyMod 24980 ((strikeInterval "NIFTY" : Nat) : Rat)) :=
  atm_strike_rounding.1 "NIFTY" 24980 (by norm_num)

/- The per-minute exit decision of StraddleStrategy.get_minute_pnl
   (src/strategy/straddle_strategy.py, lines 155-199): the body of the loop
   over joined rows, deciding whether the current minute fires a stop-loss
   or a take-profit.  Combined mode = the branch taken when per_leg is
   false; per-leg mode = the other branch.  The stop-loss comparison comes
   first; take-profit is only examined when the stop-loss did not fire and
   a target is configured. -/
def rowEvent (cfg : StraddleConfig) (ce_entry pe_entry ce_price pe_price : Rat) :
    Option ExitReason :=
  if cfg.per_leg = false then
    let total_entry := ce_entry + pe_entry
    let total_premium := ce_price + pe_price
    let loss_pct := (total_premium - total_entry) / total_entry * 100
    let profit_pct := (total_entry - total_premium) / total_entry * 100
    if cfg.stop_loss_pct ≤ loss_pct then some ExitReason.stopLoss
    else
      match cfg.target_profit_pct with
      | some tp => if tp ≤ profit_pct then some ExitReason.takeProfit else none
      | none => none
  else
    let ce_loss_pct := (ce_price - ce_entry) / ce_entry * 100
    let pe_loss_pct := (pe_price - pe_entry) / pe_entry * 100
    if cfg.stop_loss_pct ≤ ce_loss_pct ∨ cfg.stop_loss_pct ≤ pe_loss_pct then
      some ExitReason.stopLoss
    else
      match cfg.target_profit_pct with
      | some tp =>
        if tp ≤ (ce_entry - ce_price) / ce_entry * 100
            ∨ tp ≤ (pe_entry - pe_price) / pe_entry * 100 then
          some ExitReason.takeProfit
        else none
      | none => none

/- Concrete combined-mode config for the spec example: entry total 200,
   stop-loss 25 percent, no take-profit. -/
def cfgCombined : StraddleConfig :=
  { entry_time := 0, exit_time := 375, per_leg := false, stop_loss_pct := 25,
    target_profit_pct := none }

/- Concrete per-leg config for the spec example: stop-loss 25 percent,
   no take-profit. -/
def cfgPerLeg : StraddleConfig :=
  { entry_time := 0, exit_time := 375, per_leg := true, stop_loss_pct := 25,
    target_profit_pct := none }

lemma pct_flip (te tot : Rat) : (te - tot) / te * 100 = -((tot - te) / te * 100) := by
  ring

lemma pct_clear (sl x te : Rat) (hte : 0 < te) : sl ≤ x / te * 100 ↔ sl * te ≤ x * 100 := by
  rw [div_mul_eq_mul_div, le_div_iff₀ hte]

lemma rowEvent_combined (cfg : StraddleConfig) (a b c d : Rat)
    (hleg : cfg.per_leg = false) :
    rowEvent cfg a b c d =
      if cfg.stop_loss_pct ≤ (c + d - (a + b)) / (a + b) * 100 then some ExitReason.stopLoss
      else
        match cfg.target_profit_pct with
        | some tp =>
          if tp ≤ (a + b - (c + d)) / (a + b) * 100 then some ExitReason.takeProfit else none
        | none => none := by
  unfold rowEvent
  rw [hleg]
  rfl

lemma rowEvent_per_leg (cfg : StraddleConfig) (a b c d : Rat)
    (hleg : cfg.per_leg = true) :
    rowEvent cfg a b c d =
      if cfg.stop_loss_pct ≤ (c - a) / a * 100 ∨ cfg.stop_loss_pct ≤ (d - b) / b * 100 then
        some ExitReason.stopLoss
      else
        match cfg.target_profit_pct with
        | some tp =>
          if tp ≤ (a - c) / a * 100 ∨ tp ≤ (b - d) / b * 100 then some ExitReason.takeProfit
          else none
        | none => none := by
  unfold rowEvent
  rw [hleg]
  rfl

/-- C2: in combined mode the evaluator computes loss percent
= (total premium − entry total)/entry total × 100 and profit percent its
negation; StopLoss fires exactly when loss percent reaches the stop-loss
threshold, and TakeProfit exactly when a target is configured, StopLoss did
not fire on the row, and profit percent reaches the target; with entry
total 200 and stop-loss 25, total premium 251 fires StopLoss and 249
fires nothing. -/
theorem combined_exit_rule :
    (∀ (cfg : StraddleConfig) (a b c d : Rat),
      cfg.per_leg = false → 0 < a + b →
      (rowEvent cfg a b c d = some ExitReason.stopLoss ↔
        cfg.stop_loss_pct ≤ (c + d - (a + b)) / (a + b) * 100)
      ∧ (rowEvent cfg a b c d = some ExitReason.takeProfit ↔
          ∃ tp, cfg.target_profit_pct = some tp
            ∧ ¬ cfg.stop_loss_pct ≤ (c + d - (a + b)) / (a + b) * 100
            ∧ tp ≤ -((c + d - (a + b)) / (a + b) * 100))
      ∧ (a + b - (c + d)) / (a + b) * 100 = -((c + d - (a + b)) / (a + b) * 100)
      ∧ (rowEvent cfg a b c d = some ExitReason.stopLoss ↔
          cfg.stop_loss_pct * (a + b) ≤ (c + d - (a + b)) * 100))
    ∧ rowEvent cfgCombined 100 100 126 125 = some ExitReason.stopLoss
    ∧ rowEvent cfgCombined 100 100 125 124 = none := by
  refine ⟨?_, ?_, ?_⟩
  · intro cfg a b c d hleg hpos
    have hred := rowEvent_combined cfg a b c d hleg
    have hpn : (a + b - (c + d)) / (a + b) * 100
        = -((c + d - (a + b)) / (a + b) * 100) := pct_flip (a + b) (c + d)
    have h1 : rowEvent cfg a b c d = some ExitReason.stopLoss ↔
        cfg.stop_loss_pct ≤ (c + d - (a + b)) / (a + b) * 100 := by
      rw [hred]
      by_cases hsl : cfg.stop_loss_pct ≤ (c + d - (a + b)) / (a + b) * 100
      · simp [hsl]
      · rw [if_neg hsl]
        simp only [iff_false_intro hsl, iff_false]
        rcases cfg.target_profit_pct with _ | tp
        · simp
        · by_cases hq : tp ≤ (a + b - (c + d)) / (a + b) * 100
          · simp [hq]
          · simp [hq]
    have h2 : rowEvent cfg a b c d = some ExitReason.takeProfit ↔
        ∃ tp, cfg.target_profit_pct = some tp
          ∧ ¬ cfg.stop_loss_pct ≤ (c + d - (a + b)) / (a + b) * 100
          ∧ tp ≤ -((c + d - (a + b)) / (a + b) * 100) := by
      rw [hred]
      by_cases hsl : cfg.stop_loss_pct ≤ (c + d - (a + b)) / (a + b) * 100
      · rw [if_pos hsl]
        constructor
        · intro h
          simp at h
        · rintro ⟨tp, _, hno, _⟩
          exact absurd hsl hno
      · rw [if_neg hsl]
        rcases htp : cfg.target_profit_pct with _ | tp
        · constructor
          · intro h
            simp at h
          · rintro ⟨tp, htp2, _, _⟩
            simp [htp] at htp2
        · show (if tp ≤ (a + b - (c + d)) / (a + b) * 100 then some ExitReason.takeProfit
              else none) = some ExitReason.takeProfit ↔ _
          by_cases hq : tp ≤ (a + b - (c + d)) / (a + b) * 100
          · rw [if_pos hq]
            rw [hpn] at hq
            constructor
            · intro _
              exact ⟨tp, rfl, hsl, hq⟩
            · intro _
              rfl
          · rw [if_neg hq]
            constructor
            · intro h
              simp at h
            · rintro ⟨tp2, htp2, _, hle⟩
              rw [Option.some.injEq] at htp2
              subst htp2
              rw [← hpn] at hle
              exact absurd hle hq
    exact ⟨h1, h2, hpn, h1.trans (pct_clear cfg.stop_loss_pct (c + d - (a + b)) (a + b) hpos)⟩
  · norm_num [rowEvent, cfgCombined]
  · norm_num [rowEvent, cfgCombined]

/-- Witness for combined_exit_rule: the stop-loss characterization at entry
total 200, threshold 25 and current total 251. -/
theorem combined_exit_rule_witness :
    rowEvent cfgCombined 100 100 126 125 = some ExitReason.stopLoss ↔
      cfgCombined.stop_loss_pct ≤ (126 + 125 - ((100 : Rat) + 100)) / (100 + 100) * 100 :=
  (combined_exit_rule.1 cfgCombined 100 100 126 125 rfl (by norm_num)).1

/-- C3: in per-leg mode each leg's loss percent is (current − entry)/entry × 100
and its profit percent the negation; StopLoss fires exactly when either leg's
loss percent reaches the stop-loss threshold, and TakeProfit exactly when a
target is configured, StopLoss did not fire on the row, and either leg's profit
percent reaches the target; with entries CE=100, PE=100 and stop-loss 25,
CE price 126 fires StopLoss and CE price 124 does not. -/
theorem per_leg_exit_rule :
    (∀ (cfg : StraddleConfig) (a b c d : Rat),
      cfg.per_leg = true → 0 < a → 0 < b →
      (rowEvent cfg a b c d = some ExitReason.stopLoss ↔
        cfg.stop_loss_pct ≤ (c - a) / a * 100 ∨ cfg.stop_loss_pct ≤ (d - b) / b * 100)
      ∧ (rowEvent cfg a b c d = some ExitReason.takeProfit ↔
          ∃ tp, cfg.target_profit_pct = some tp
            ∧ ¬ (cfg.stop_loss_pct ≤ (c - a) / a * 100
                  ∨ cfg.stop_loss_pct ≤ (d - b) / b * 100)
            ∧ (tp ≤ -((c - a) / a * 100) ∨ tp ≤ -((d - b) / b * 100)))
      ∧ (a - c) / a * 100 = -((c - a) / a * 100)
      ∧ (b - d) / b * 100 = -((d - b) / b * 100)
      ∧ (rowEvent cfg a b c d = some ExitReason.stopLoss ↔
          cfg.stop_loss_pct * a ≤ (c - a) * 100 ∨ cfg.stop_loss_pct * b ≤ (d - b) * 100))
    ∧ rowEvent cfgPerLeg 100 100 126 100 = some ExitReason.stopLoss
    ∧ rowEvent cfgPerLeg 100 100 124 100 = none := by
  refine ⟨?_, ?_, ?_⟩
  · intro cfg a b c d hleg hpa hpb
    have hred := rowEvent_per_leg cfg a b c d hleg
    have hpn1 : (a - c) / a * 100 = -((c - a) / a * 100) := pct_flip a c
    have hpn2 : (b - d) / b * 100 = -((d - b) / b * 100) := pct_flip b d
    have h1 : rowEvent cfg a b c d = some ExitReason.stopLoss ↔
        cfg.stop_loss_pct ≤ (c - a) / a * 100 ∨ cfg.stop_loss_pct ≤ (d - b) / b * 100 := by
      rw [hred]
      by_cases hsl : cfg.stop_loss_pct ≤ (c - a) / a * 100
          ∨ cfg.stop_loss_pct ≤ (d - b) / b * 100
      · simp [hsl]
      · rw [if_neg hsl]
        simp only [iff_false_intro hsl, iff_false]
        rcases cfg.target_profit_pct with _ | tp
        · simp
        · by_cases hq : tp ≤ (a - c) / a * 100 ∨ tp ≤ (b - d) / b * 100
          · simp [hq]
          · simp [hq]
    have h2 : rowEvent cfg a b c d = some ExitReason.takeProfit ↔
        ∃ tp, cfg.target_profit_pct = some tp
          ∧ ¬ (cfg.stop_loss_pct ≤ (c - a) / a * 100
                ∨ cfg.stop_loss_pct ≤ (d - b) / b * 100)
          ∧ (tp ≤ -((c - a) / a * 100) ∨ tp ≤ -((d - b) / b * 100)) := by
      rw [hred]
      by_cases hsl : cfg.stop_loss_pct ≤ (c - a) / a * 100
          ∨ cfg.stop_loss_pct ≤ (d - b) / b * 100
      · rw [if_pos hsl]
        constructor
        · intro h
          simp at h
        · rintro ⟨tp, _, hno, _⟩
          exact absurd hsl hno
      · rw [if_neg hsl]
        rcases htp : cfg.target_profit_pct with _ | tp
        · constructor
          · intro h
            simp at h
          · rintro ⟨tp, htp2, _, _⟩
            simp [htp] at htp2
        · show (if tp ≤ (a - c) / a * 100 ∨ tp ≤ (b - d) / b * 100 then
              some ExitReason.takeProfit else none) = some ExitReason.takeProfit ↔ _
          by_cases hq : tp ≤ (a - c) / a * 100 ∨ tp ≤ (b - d) / b * 100
          · rw [if_pos hq]
            rw [hpn1, hpn2] at hq
            constructor
            · intro _
              exact ⟨tp, rfl, hsl, hq⟩
            · intro _
              rfl
          · rw [if_neg hq]
            constructor
            · intro h
              simp at h
            · rintro ⟨tp2, htp2, _, hle⟩
              rw [Option.some.injEq] at htp2
              subst htp2
              rw [← hpn1, ← hpn2] at hle
              exact absurd hle hq
    refine ⟨h1, h2, hpn1, hpn2, h1.trans (or_congr ?_ ?_)⟩
    · exact pct_clear cfg.stop_loss_pct (c - a) a hpa
    · exact pct_clear cfg.stop_loss_pct (d - b) b hpb
  · norm_num [rowEvent, cfgPerLeg]
  · norm_num [rowEvent, cfgPerLeg]

/-- Witness for per_leg_exit_rule: the stop-loss characterization at entries
CE=100, PE=100, threshold 25, CE price 126. -/
theorem per_leg_exit_rule_witness :
    rowEvent cfgPerLeg 100 100 126 100 = some ExitReason.stopLoss ↔
      cfgPerLeg.stop_loss_pct ≤ (126 - (100 : Rat)) / 100 * 100
        ∨ cfgPerLeg.stop_loss_pct ≤ ((100 : Rat) - 100) / 100 * 100 :=
  (per_leg_exit_rule.1 cfgPerLeg 100 100 126 100 rfl (by norm_num) (by norm_num)).1

/- One row of the inner join of the two legs on exact timestamp equality. -/
structure JRow where
  dt : Nat
  close_ce : Rat
  close_pe : Rat
deriving DecidableEq, Repr

/- One row of the minute P&L frame built by get_minute_pnl: the joined row
   plus the MinutePnL and CumulativePnL columns added before the exit loop
   (CumulativePnL is MinutePnL scaled by lot size, exactly as in the code). -/
structure PnlRow where
  dt : Nat
  close_ce : Rat
  close_pe : Rat
  minutePnl : Rat
  cumulativePnl : Rat
deriving DecidableEq, Repr

/- Result of get_minute_pnl: the (possibly truncated) P&L frame, the
   exited flag, the actual exit timestamp and the exit reason. -/
structure PnlResult where
  rows : List PnlRow
  exited_flag : Bool
  exit_time_actual : Nat
  exit_reason : ExitReason
deriving DecidableEq, Repr

/- Result tuple of StraddleStrategy.run. -/
structure RunResult where
  net_pnl : Rat
  gross_pnl : Rat
  ce_entry : Rat
  pe_entry : Rat
  ce_exit : Rat
  pe_exit : Rat
  rows : List PnlRow
  exited_flag : Bool
  exit_time : Nat
  exit_reason : ExitReason
deriving DecidableEq, Repr

/- Bars of one leg restricted to the window [entry_time, exit_time]
   (get_minute_pnl lines 132-133). -/
def windowBars (cfg : StraddleConfig) (l : List Bar) : List Bar :=
  l.filter (fun b => decide (cfg.entry_time ≤ b.dt) && decide (b.dt ≤ cfg.exit_time))

/- The pandas inner merge of the two windowed legs on exact timestamp
   equality (get_minute_pnl lines 135-140).  With unique timestamps per leg
   (the stated data model) the merge keeps the left-leg row order and pairs
   each call bar with the put bar of the same timestamp. -/
def joinWindow (cfg : StraddleConfig) (call put : List Bar) : List JRow :=
  (windowBars cfg call).filterMap (fun b =>
    ((windowBars cfg put).find? (fun p => p.dt == b.dt)).map
      (fun p => { dt := b.dt, close_ce := b.close, close_pe := p.close }))

/- The MinutePnL / CumulativePnL columns (get_minute_pnl lines 145-146). -/
def mkRows (cfg : StraddleConfig) (ce_entry pe_entry : Rat) (joined : List JRow) :
    List PnlRow :=
  joined.map (fun j =>
    { dt := j.dt, close_ce := j.close_ce, close_pe := j.close_pe,
      minutePnl := (ce_entry + pe_entry) - (j.close_ce + j.close_pe),
      cumulativePnl := ((ce_entry + pe_entry) - (j.close_ce + j.close_pe))
        * (cfg.lot_size : Int) })

/- The exit-detection loop of get_minute_pnl (lines 155-199): walk the rows
   in order; on the first row whose rowEvent fires, truncate the frame to
   that row inclusive and report the fired reason with its timestamp. -/
def exitScan (cfg : StraddleConfig) (ce_entry pe_entry : Rat) :
    List PnlRow → List PnlRow × Option (ExitReason × Nat)
  | [] => ([], none)
  | r :: rs =>
    match rowEvent cfg ce_entry pe_entry r.close_ce r.close_pe with
    | some reason => ([r], some (reason, r.dt))
    | none =>
      let t := exitScan cfg ce_entry pe_entry rs
      (r :: t.1, t.2)

def reasonOf : Option (ExitReason × Nat) → ExitReason
  | some (r, _) => r
  | none => ExitReason.endOfWindow

def slFired : Option (ExitReason × Nat) → Bool
  | some (ExitReason.stopLoss, _) => true
  | _ => false

def tpFired : Option (ExitReason × Nat) → Bool
  | some (ExitReason.takeProfit, _) => true
  | _ => false

def defaultPnlRow : PnlRow :=
  { dt := 0, close_ce := 0, close_pe := 0, minutePnl := 0, cumulativePnl := 0 }

/- Packaging of the loop outcome exactly as get_minute_pnl does at lines
   148-151 and 201: sl_triggered / tp_triggered record which event fired,
   exit_reason defaults to "Exit" and exit_time_actual to the last row of
   the untruncated frame, and
   exited_flag = sl_triggered or tp_triggered or (exit_reason == "Exit"). -/
def scanResult (cfg : StraddleConfig) (ce_entry pe_entry : Rat) (rows : List PnlRow) :
    PnlResult :=
  let s := exitScan cfg ce_entry pe_entry rows
  { rows := s.1
    exited_flag := slFired s.2 || tpFired s.2
      || decide (reasonOf s.2 = ExitReason.endOfWindow)
    exit_time_actual :=
      match s.2 with
      | some (_, t) => t
      | none => (rows.getLastD defaultPnlRow).dt
    exit_reason := reasonOf s.2 }

/- StraddleStrategy.get_minute_pnl (lines 117-202): window both legs, inner
   join on timestamp, fail when the join is empty, otherwise add the P&L
   columns and run the exit loop. -/
def get_minute_pnl (cfg : StraddleConfig) (call put : List Bar)
    (ce_entry pe_entry : Rat) : Except String PnlResult :=
  match joinWindow cfg call put with
  | [] => Except.error "No overlapping minute bars between CE and PE in window"
  | j :: js =>
    Except.ok (scanResult cfg ce_entry pe_entry (mkRows cfg ce_entry pe_entry (j :: js)))

/- The bars of one leg at or after the entry time (run lines 61-62). -/
def entryCandidates (cfg : StraddleConfig) (l : List Bar) : List Bar :=
  l.filter (fun b => decide (cfg.entry_time ≤ b.dt))

/- The P&L / slippage / commission arithmetic of run (lines 74-99), applied
   to the entry premiums and the result of get_minute_pnl.  Exit premiums
   are the close prices of the last row of the (possibly truncated) frame;
   slippage lowers both entries and raises both exits; both P&L figures are
   scaled by lot_size * lot_multiplier; commission for the two legs is then
   subtracted from the net figure. -/
def mkTrade (cfg : StraddleConfig) (ce_entry pe_entry : Rat) (pr : PnlResult) :
    RunResult :=
  let lastRow := pr.rows.getLastD defaultPnlRow
  let ce_exit := lastRow.close_ce
  let pe_exit := lastRow.close_pe
  let slippage := cfg.slippage_points
  let gross0 := (ce_entry - ce_exit) + (pe_entry - pe_exit)
  let net0 := ((ce_entry - slippage) - (ce_exit + slippage))
    + ((pe_entry - slippage) - (pe_exit + slippage))
  { net_pnl := net0 * ((cfg.lot_size : Int) * cfg.lot_multiplier)
      - 2 * cfg.commission_per_lot * cfg.lot_multiplier
    gross_pnl := gross0 * ((cfg.lot_size : Int) * cfg.lot_multiplier)
    ce_entry := ce_entry
    pe_entry := pe_entry
    ce_exit := ce_exit
    pe_exit := pe_exit
    rows := pr.rows
    exited_flag := pr.exited_flag
    exit_time := pr.exit_time_actual
    exit_reason := pr.exit_reason }

/- StraddleStrategy.run (lines 47-115): reject missing/empty inputs, locate
   the first bar at or after the entry time on each leg (entry premiums),
   delegate to get_minute_pnl, then apply the cost arithmetic. -/
def run (cfg : StraddleConfig) (call put : List Bar) : Except String RunResult :=
  if call = [] ∨ put = [] then
    Except.error "Call or Put data missing or empty for strategy.run"
  else
    match entryCandidates cfg call, entryCandidates cfg put with
    | [], _ => Except.error "No CE PE bars at or after entry time"
    | _ :: _, [] => Except.error "No CE PE bars at or after entry time"
    | cb :: _, pb :: _ =>
      match get_minute_pnl cfg call put cb.close pb.close with
      | Except.error e => Except.error e
      | Except.ok pr => Except.ok (mkTrade cfg cb.close pb.close pr)

lemma flag_true (f : Option (ExitReason × Nat)) :
    (slFired f || tpFired f || decide (reasonOf f = ExitReason.endOfWindow)) = true := by
  rcases f with _ | ⟨r, t⟩
  · rfl
  · cases r <;> rfl

/-- C10: whenever the minute-P&L computation succeeds, the returned
exited_flag is true: it is set when a stop-loss or take-profit fires, and
when neither fires the reason still equals the end-of-window default, so
the disjunction defining the flag is always true and the flag never
distinguishes two successful runs. -/
theorem exited_flag_always_true :
    ∀ (cfg : StraddleConfig) (call put : List Bar) (ce_entry pe_entry : Rat)
      (r : PnlResult),
      get_minute_pnl cfg call put ce_entry pe_entry = Except.ok r →
      r.exited_flag = true := by
  intro cfg call put a b r h
  unfold get_minute_pnl at h
  split at h
  · cases h
  · rw [Except.ok.injEq] at h
    subst h
    exact flag_true _

/- A concrete pair of legs on which every simulation step succeeds: two
   common minutes, flat prices, no exit trigger under cfgCombined. -/
def callDemo : List Bar := [{ dt := 0, close := 100 }, { dt := 1, close := 90 }]

def putDemo : List Bar := [{ dt := 0, close := 100 }, { dt := 1, close := 90 }]

def pnlDemo : PnlResult :=
  match get_minute_pnl cfgCombined callDemo putDemo 100 100 with
  | Except.ok r => r
  | Except.error _ => { rows := [], exited_flag := false, exit_time_actual := 0,
                        exit_reason := ExitReason.endOfWindow }

/-- Witness for exited_flag_always_true: the flag of a concrete successful
minute-P&L computation. -/
theorem exited_flag_always_true_witness : pnlDemo.exited_flag = true :=
  exited_flag_always_true cfgCombined callDemo putDemo 100 100 pnlDemo (by rfl)

/- A simulation attempt that raised (any ValueError in run / get_minute_pnl
   is a data-gap failure of the single trade attempt). -/
def isDataGap {A : Type} : Except String A → Bool
  | Except.error _ => true
  | Except.ok _ => false

lemma gmp_gap_iff (cfg : StraddleConfig) (call put : List Bar) (a b : Rat) :
    isDataGap (get_minute_pnl cfg call put a b) = true ↔
      joinWindow cfg call put = [] := by
  unfold get_minute_pnl
  split
  · next h => simp [isDataGap, h]
  · next j js h => simp [isDataGap, h]

lemma exitScan_ne_nil (cfg : StraddleConfig) (a b : Rat) (r : PnlRow)
    (rs : List PnlRow) : (exitScan cfg a b (r :: rs)).1 ≠ [] := by
  unfold exitScan
  rcases h : rowEvent cfg a b r.close_ce r.close_pe with _ | reason
  · simp
  · simp

lemma gmp_ok_rows_ne_nil (cfg : StraddleConfig) (call put : List Bar) (a b : Rat)
    (pr : PnlResult) (h : get_minute_pnl cfg call put a b = Except.ok pr) :
    pr.rows ≠ [] := by
  unfold get_minute_pnl at h
  split at h
  · cases h
  · next j js hj =>
    rw [Except.ok.injEq] at h
    subst h
    show (exitScan cfg a b (mkRows cfg a b (j :: js))).1 ≠ []
    rw [mkRows, List.map_cons]
    exact exitScan_ne_nil cfg a b _ _

lemma run_gap_iff (cfg : StraddleConfig) (call put : List Bar) :
    isDataGap (run cfg call put) = true ↔
      entryCandidates cfg call = [] ∨ entryCandidates cfg put = []
        ∨ joinWindow cfg call put = [] := by
  by_cases hempty : call = [] ∨ put = []
  · have h1 : run cfg call put =
        Except.error "Call or Put data missing or empty for strategy.run" := by
      unfold run
      rw [if_pos hempty]
    rw [h1]
    simp only [isDataGap, true_iff]
    rcases hempty with h | h
    · exact Or.inl (by rw [h]; rfl)
    · exact Or.inr (Or.inl (by rw [h]; rfl))
  · rcases hc : entryCandidates cfg call with _ | ⟨cb, cbs⟩
    · have h1 : run cfg call put =
          Except.error "No CE PE bars at or after entry time" := by
        unfold run
        rw [if_neg hempty, hc]
      rw [h1]
      simp only [isDataGap, true_iff]
      exact Or.inl trivial
    · rcases hp : entryCandidates cfg put with _ | ⟨pb, pbs⟩
      · have h1 : run cfg call put =
            Except.error "No CE PE bars at or after entry time" := by
          unfold run
          rw [if_neg hempty, hc, hp]
        rw [h1]
        simp only [isDataGap, true_iff]
        exact Or.inr (Or.inl trivial)
      · rcases hg : get_minute_pnl cfg call put cb.close pb.close with e | pr
        · have h1 : run cfg call put = Except.error e := by
            unfold run
            rw [if_neg hempty, hc, hp]
            show (match get_minute_pnl cfg call put cb.close pb.close with
              | Except.error e => Except.error e
              | Except.ok pr => Except.ok (mkTrade cfg cb.close pb.close pr)) =
                Except.error e
            rw [hg]
          have hj : joinWindow cfg call put = [] := by
            rw [← gmp_gap_iff cfg call put cb.close pb.close, hg]
            rfl
          rw [h1]
          simp only [isDataGap, true_iff]
          exact Or.inr (Or.inr hj)
        · have h1 : run cfg call put = Except.ok (mkTrade cfg cb.close pb.close pr) := by
            unfold run
            rw [if_neg hempty, hc, hp]
            show (match get_minute_pnl cfg call put cb.close pb.close with
              | Except.error e => Except.error e
              | Except.ok pr => Except.ok (mkTrade cfg cb.close pb.close pr)) =
                Except.ok (mkTrade cfg cb.close pb.close pr)
            rw [hg]
          have hj : joinWindow cfg call put ≠ [] := by
            intro hcontra
            have hfold := (gmp_gap_iff cfg call put cb.close pb.close).mpr hcontra
            rw [hg] at hfold
            cases hfold
          rw [h1]
          simp only [isDataGap, Bool.false_eq_true, false_iff]
          rintro (h | h | h)
          · simp at h
          · simp at h
          · exact hj h

lemma run_ok_rows_ne_nil (cfg : StraddleConfig) (call put : List Bar)
    (r : RunResult) (h : run cfg call put = Except.ok r) : r.rows ≠ [] := by
  unfold run at h
  split at h
  · cases h
  · split at h
    · cases h
    · cases h
    · next cb cbs pb pbs hcall hput =>
      split at h
      · cases h
      · next pr hok =>
        rw [Except.ok.injEq] at h
        subst h
        show pr.rows ≠ []
        exact gmp_ok_rows_ne_nil cfg call put cb.close pb.close pr hok

lemma entryCandidates_eq_nil_iff (cfg : StraddleConfig) (l : List Bar) :
    entryCandidates cfg l = [] ↔ ∀ b ∈ l, b.dt < cfg.entry_time := by
  unfold entryCandidates
  rw [List.filter_eq_nil_iff]
  constructor
  · intro h b hb
    have := h b hb
    simpa [Nat.not_le] using this
  · intro h b hb
    simpa [Nat.not_le] using h b hb

lemma joinWindow_eq_nil_iff (cfg : StraddleConfig) (call put : List Bar) :
    joinWindow cfg call put = [] ↔
      ∀ b ∈ call, cfg.entry_time ≤ b.dt → b.dt ≤ cfg.exit_time →
        ∀ p ∈ put, cfg.entry_time ≤ p.dt → p.dt ≤ cfg.exit_time → p.dt ≠ b.dt := by
  unfold joinWindow windowBars
  rw [List.filterMap_eq_nil_iff]
  constructor
  · intro h b hb hb1 hb2 p hp hp1 hp2
    have hbmem : b ∈ call.filter
        (fun x => decide (cfg.entry_time ≤ x.dt) && decide (x.dt ≤ cfg.exit_time)) := by
      rw [List.mem_filter]
      exact ⟨hb, by simp [hb1, hb2]⟩
    have := h b hbmem
    rw [Option.map_eq_none', List.find?_eq_none] at this
    intro hdt
    have hpmem : p ∈ put.filter
        (fun x => decide (cfg.entry_time ≤ x.dt) && decide (x.dt ≤ cfg.exit_time)) := by
      rw [List.mem_filter]
      exact ⟨hp, by simp [hp1, hp2]⟩
    have hfalse := this p hpmem
    simp [hdt] at hfalse
  · intro h b hbmem
    rw [List.mem_filter] at hbmem
    obtain ⟨hb, hcond⟩ := hbmem
    rw [Bool.and_eq_true, decide_eq_true_eq, decide_eq_true_eq] at hcond
    rw [Option.map_eq_none', List.find?_eq_none]
    intro p hpmem hdt
    rw [List.mem_filter] at hpmem
    obtain ⟨hp, hpcond⟩ := hpmem
    rw [Bool.and_eq_true, decide_eq_true_eq, decide_eq_true_eq] at hpcond
    rw [beq_iff_eq] at hdt
    exact h b hb hcond.1 hcond.2 p hp hpcond.1 hpcond.2 hdt

/-- C6: a single trade simulation fails with a DataGap error if and only if
either leg has no bar at or after the entry time, or the inner join of the
two legs on exact timestamp equality within [entry time, exit time] is
empty; otherwise it succeeds and returns a non-empty minute P&L series. -/
theorem data_gap_characterization :
    ∀ (cfg : StraddleConfig) (call put : List Bar),
      (isDataGap (run cfg call put) = true ↔
        (∀ b ∈ call, b.dt < cfg.entry_time) ∨ (∀ b ∈ put, b.dt < cfg.entry_time)
          ∨ (∀ b ∈ call, cfg.entry_time ≤ b.dt → b.dt ≤ cfg.exit_time →
              ∀ p ∈ put, cfg.entry_time ≤ p.dt → p.dt ≤ cfg.exit_time → p.dt ≠ b.dt))
      ∧ (∀ r : RunResult, run cfg call put = Except.ok r → r.rows ≠ []) := by
  intro cfg call put
  constructor
  · rw [run_gap_iff cfg call put, entryCandidates_eq_nil_iff, entryCandidates_eq_nil_iff,
      joinWindow_eq_nil_iff]
  · intro r h
    exact run_ok_rows_ne_nil cfg call put r h

/- The RunResult of the concrete successful demo simulation. -/
def runDemo : RunResult :=
  match run cfgCombined callDemo putDemo with
  | Except.ok r => r
  | Except.error _ =>
    { net_pnl := 0, gross_pnl := 0, ce_entry := 0, pe_entry := 0, ce_exit := 0,
      pe_exit := 0, rows := [], exited_flag := false, exit_time := 0,
      exit_reason := ExitReason.endOfWindow }

/-- Witness for data_gap_characterization: the concrete successful demo
simulation returns a non-empty minute P&L series. -/
theorem data_gap_characterization_witness : runDemo.rows ≠ [] :=
  (data_gap_characterization cfgCombined callDemo putDemo).2 runDemo (by rfl)

/-- C1 counterexample: on a concrete successful simulation (entries 100/100,
exits 90/90, lot size 75, lot multiplier 1) the recorded gross P&L is 1500,
the premium delta times lot size times lot multiplier, not the bare premium
delta 20 that the claim states. -/
theorem gross_pnl_unscaled_refuted :
    runDemo.ce_entry = 100 ∧ runDemo.pe_entry = 100
      ∧ runDemo.ce_exit = 90 ∧ runDemo.pe_exit = 90
      ∧ runDemo.gross_pnl = 1500
      ∧ runDemo.gross_pnl ≠
          (runDemo.ce_entry + runDemo.pe_entry) - (runDemo.ce_exit + runDemo.pe_exit) := by
  have h1 : runDemo.ce_entry = 100 := by rfl
  have h2 : runDemo.pe_entry = 100 := by rfl
  have h3 : runDemo.ce_exit = 90 := by rfl
  have h4 : runDemo.pe_exit = 90 := by rfl
  have h5 : runDemo.gross_pnl = 1500 := by rfl
  refine ⟨h1, h2, h3, h4, h5, ?_⟩
  rw [h1, h2, h3, h4, h5]
  norm_num

/-- C1 amended: for every successful trade simulation, gross P&L equals the
premium delta (entries minus exits) times lot_size × lot_multiplier; net P&L
equals the same delta with each entry lowered and each exit raised by
slippage_points, times lot_size × lot_multiplier, minus
2 × commission_per_lot × lot_multiplier; equivalently net P&L = gross P&L
− 4 × slippage_points × lot_size × lot_multiplier
− 2 × commission_per_lot × lot_multiplier. -/
theorem trade_pnl_formula :
    ∀ (cfg : StraddleConfig) (call put : List Bar) (r : RunResult),
      run cfg call put = Except.ok r →
      r.gross_pnl = ((r.ce_entry - r.ce_exit) + (r.pe_entry - r.pe_exit))
          * ((cfg.lot_size : Int) : Rat) * cfg.lot_multiplier
      ∧ r.net_pnl = (((r.ce_entry - cfg.slippage_points) - (r.ce_exit + cfg.slippage_points))
            + ((r.pe_entry - cfg.slippage_points) - (r.pe_exit + cfg.slippage_points)))
          * ((cfg.lot_size : Int) : Rat) * cfg.lot_multiplier
          - 2 * cfg.commission_per_lot * cfg.lot_multiplier
      ∧ r.net_pnl = r.gross_pnl
          - 4 * cfg.slippage_points * ((cfg.lot_size : Int) : Rat) * cfg.lot_multiplier
          - 2 * cfg.commission_per_lot * cfg.lot_multiplier := by
  intro cfg call put r h
  unfold run at h
  split at h
  · cases h
  · split at h
    · cases h
    · cases h
    · split at h
      · cases h
      · rw [Except.ok.injEq] at h
        subst h
        refine ⟨?_, ?_, ?_⟩
        · simp only [mkTrade]
          ring
        · simp only [mkTrade]
          ring
        · simp only [mkTrade]
          ring

/-- Witness for trade_pnl_formula: the net-from-gross identity on the
concrete demo simulation. -/
theorem trade_pnl_formula_witness :
    runDemo.net_pnl = runDemo.gross_pnl
      - 4 * cfgCombined.slippage_points * ((cfgCombined.lot_size : Int) : Rat)
          * cfgCombined.lot_multiplier
      - 2 * cfgCombined.commission_per_lot * cfgCombined.lot_multiplier :=
  (trade_pnl_formula cfgCombined callDemo putDemo runDemo (by rfl)).2.2

/- A config with a negative lot size: the dataclass and the engine accept it
   unchanged (no validation exists anywhere in the code). -/
def cfgNegLot : StraddleConfig := { cfgCombined with lot_size := -75 }

def runNegDemo : RunResult :=
  match run cfgNegLot callDemo putDemo with
  | Except.ok r => r
  | Except.error _ =>
    { net_pnl := 0, gross_pnl := 0, ce_entry := 0, pe_entry := 0, ce_exit := 0,
      pe_exit := 0, rows := [], exited_flag := false, exit_time := 0,
      exit_reason := ExitReason.endOfWindow }

/-- C9 counterexample: with lot_size = −75 the simulation does not fail — it
runs to completion and produces a recorded trade (here with gross P&L −1500),
so an invalid config is not rejected before simulation. -/
theorem negative_lot_size_still_trades :
    cfgNegLot.lot_size < 0
      ∧ isDataGap (run cfgNegLot callDemo putDemo) = false
      ∧ runNegDemo.gross_pnl = -1500 := by
  refine ⟨by decide, by rfl, by rfl⟩

/-- C9 amended: the engine performs no config validation; whether a trade
simulation succeeds or fails is entirely independent of lot_size, so a
config with a negative lot size is accepted and simulated like any other. -/
theorem run_success_ignores_lot_size :
    ∀ (cfg : StraddleConfig) (l : Int) (call put : List Bar),
      isDataGap (run { cfg with lot_size := l } call put)
        = isDataGap (run cfg call put) := by
  intro cfg l call put
  rw [Bool.eq_iff_iff, run_gap_iff, run_gap_iff]
  exact Iff.rfl

/- Why the day's trading stopped: one constructor per `break` (or loop-guard
   fall-through) of the re-entry while-loop of BacktestEngine.run_backtest
   (src/main.py lines 61-143). -/
inductive DayStop where
  | maxLossReached
  | normalExit
  | dataGapStop
  | reentryLimitReached
  | loopEnded
deriving DecidableEq, Repr

/- What the external collaborators hand one trade attempt: the net P&L and
   exit reason produced by strategy.run on the fetched leg data, plus
   whether the underlying price at or after the exit time is available for
   a re-entry.  `none` models missing or empty CE/PE data (lines 78-88). -/
structure AttemptResult where
  net : Rat
  reason : ExitReason
  refetchOk : Bool
deriving DecidableEq, Repr

/- One recorded trade of the day: its re-entry index, net P&L and reason. -/
structure TradeRec where
  reentry : Nat
  net : Rat
  reason : ExitReason
deriving DecidableEq, Repr

/- Outcome of one date: recorded trades, final accumulated net P&L, the
   cause of the stop, and how many trade attempts were started (an attempt
   is started when the loop consults the data environment, i.e. computes a
   strike and fetches data — everything after the daily-loss check). -/
structure DayOutcome where
  trades : List TradeRec
  dailyPnl : Rat
  cause : DayStop
  attempts : Nat
deriving DecidableEq, Repr

/- The re-entry while-loop of BacktestEngine.run_backtest (lines 61-143),
   one date, with the data collaborators abstracted as `env` (attempt
   number ↦ outcome).  Faithful control flow:
   - loop guard: reentry <= max_reentries;
   - first the daily-loss check: stop before attempting when
     daily_pnl <= -max_loss_per_day (lines 63-65);
   - missing CE/PE data stops the day without a trade (lines 78-88);
   - otherwise record the trade and add its net P&L (lines 95-115);
   - TakeProfit or end-of-window exit stops the day (lines 118-119);
   - StopLoss with re-entries left: if the underlying refetch fails stop
     (lines 127-136), else continue with reentry+1 (lines 138-141);
   - otherwise (StopLoss at the re-entry limit) stop (lines 142-143).
   The fuel argument is max_reentries + 1 - reentry, which bounds the
   remaining loop iterations. -/
def runDayAux (cfg : StraddleConfig) (env : Nat → Option AttemptResult) :
    Nat → Nat → Rat → DayOutcome
  | 0, _, pnl => { trades := [], dailyPnl := pnl, cause := DayStop.loopEnded, attempts := 0 }
  | fuel + 1, reentry, pnl =>
    if pnl ≤ -cfg.max_loss_per_day then
      { trades := [], dailyPnl := pnl, cause := DayStop.maxLossReached, attempts := 0 }
    else
      match env reentry with
      | none =>
        { trades := [], dailyPnl := pnl, cause := DayStop.dataGapStop, attempts := 1 }
      | some ar =>
        let tr : TradeRec := { reentry := reentry, net := ar.net, reason := ar.reason }
        if ar.reason = ExitReason.takeProfit ∨ ar.reason = ExitReason.endOfWindow then
          { trades := [tr], dailyPnl := pnl + ar.net, cause := DayStop.normalExit,
            attempts := 1 }
        else if ar.reason = ExitReason.stopLoss ∧ reentry < cfg.max_reentries then
          if ar.refetchOk then
            let o := runDayAux cfg env fuel (reentry + 1) (pnl + ar.net)
            { trades := tr :: o.trades, dailyPnl := o.dailyPnl, cause := o.cause,
              attempts := o.attempts + 1 }
          else
            { trades := [tr], dailyPnl := pnl + ar.net, cause := DayStop.dataGapStop,
              attempts := 1 }
        else
          { trades := [tr], dailyPnl := pnl + ar.net,
            cause := DayStop.reentryLimitReached, attempts := 1 }

/- One date of run_backtest: start at reentry 0 with zero accumulated P&L. -/
def runDay (cfg : StraddleConfig) (env : Nat → Option AttemptResult) : DayOutcome :=
  runDayAux cfg env (cfg.max_reentries + 1) 0 0

/- Sum of the net P&L of the first k recorded trades. -/
def sumFirstNets (ts : List TradeRec) (k : Nat) : Rat :=
  ((ts.take k).map TradeRec.net).sum

lemma sumFirstNets_zero (ts : List TradeRec) : sumFirstNets ts 0 = 0 := rfl

lemma sumFirstNets_cons_succ (t : TradeRec) (ts : List TradeRec) (k : Nat) :
    sumFirstNets (t :: ts) (k + 1) = t.net + sumFirstNets ts k := by
  unfold sumFirstNets
  rw [List.take_succ_cons, List.map_cons, List.sum_cons]

lemma runDayAux_safe (cfg : StraddleConfig) (env : Nat → Option AttemptResult) :
    ∀ (fuel reentry : Nat) (pnl : Rat) (k : Nat),
      k < (runDayAux cfg env fuel reentry pnl).attempts →
      -cfg.max_loss_per_day < pnl + sumFirstNets (runDayAux cfg env fuel reentry pnl).trades k := by
  intro fuel
  induction fuel with
  | zero =>
    intro reentry pnl k hk
    simp [runDayAux] at hk
  | succ fuel ih =>
    intro reentry pnl k hk
    unfold runDayAux at hk ⊢
    by_cases hcap : pnl ≤ -cfg.max_loss_per_day
    · rw [if_pos hcap] at hk
      simp at hk
    · rw [if_neg hcap] at hk ⊢
      have hpnl : -cfg.max_loss_per_day < pnl := lt_of_not_le hcap
      rcases henv : env reentry with _ | ar
      · rw [henv] at hk
        dsimp only at hk ⊢
        have hk0 : k = 0 := by omega
        subst hk0
        simpa [sumFirstNets_zero]
      · rw [henv] at hk
        dsimp only at hk ⊢
        by_cases hr1 : ar.reason = ExitReason.takeProfit ∨ ar.reason = ExitReason.endOfWindow
        · rw [if_pos hr1] at hk ⊢
          dsimp only at hk ⊢
          have hk0 : k = 0 := by omega
          subst hk0
          simpa [sumFirstNets_zero]
        · rw [if_neg hr1] at hk ⊢
          by_cases hr2 : ar.reason = ExitReason.stopLoss ∧ reentry < cfg.max_reentries
          · rw [if_pos hr2] at hk ⊢
            by_cases hrf : ar.refetchOk
            · rw [if_pos hrf] at hk ⊢
              dsimp only at hk ⊢
              rcases k with _ | k
              · simpa [sumFirstNets_zero]
              · rw [sumFirstNets_cons_succ]
                have hk2 : k < (runDayAux cfg env fuel (reentry + 1) (pnl + ar.net)).attempts := by
                  omega
                have hrec := ih (reentry + 1) (pnl + ar.net) k hk2
                calc -cfg.max_loss_per_day
                    < (pnl + ar.net)
                      + sumFirstNets (runDayAux cfg env fuel (reentry + 1) (pnl + ar.net)).trades k := hrec
                  _ = pnl + (ar.net
                      + sumFirstNets (runDayAux cfg env fuel (reentry + 1) (pnl + ar.net)).trades k) := by
                      ring
            · rw [if_neg hrf] at hk ⊢
              dsimp only at hk ⊢
              have hk0 : k = 0 := by omega
              subst hk0
              simpa [sumFirstNets_zero]
          · rw [if_neg hr2] at hk ⊢
            dsimp only at hk ⊢
            have hk0 : k = 0 := by omega
            subst hk0
            simpa [sumFirstNets_zero]

/- Spec example config for the daily loss cap: cap 5000 with re-entries to
   spare, every attempt a stop-loss losing 2600 net. -/
def cfgCapDemo : StraddleConfig :=
  { cfgCombined with max_loss_per_day := 5000, max_reentries := 5 }

def envCapDemo : Nat → Option AttemptResult :=
  fun _ => some { net := -2600, reason := ExitReason.stopLoss, refetchOk := true }

/-- C4: a trade attempt is never started (the environment is never consulted
for a strike or data) once the accumulated net P&L is at or below
−max_loss_per_day: before attempt k the day P&L equals the sum of the first
k recorded nets, and every started attempt has that sum strictly above the
cap; concretely, with cap 5000 and each trade netting −2600, exactly 2
attempts start, 2 trades are recorded, and the day stops with the
max-loss cause even though re-entries remain. -/
theorem daily_loss_cap_blocks_attempts :
    (∀ (cfg : StraddleConfig) (env : Nat → Option AttemptResult) (k : Nat),
      k < (runDay cfg env).attempts →
      -cfg.max_loss_per_day < sumFirstNets (runDay cfg env).trades k)
    ∧ (runDay cfgCapDemo envCapDemo).attempts = 2
    ∧ (runDay cfgCapDemo envCapDemo).trades.length = 2
    ∧ (runDay cfgCapDemo envCapDemo).dailyPnl = -5200
    ∧ (runDay cfgCapDemo envCapDemo).cause = DayStop.maxLossReached := by
  refine ⟨?_, by decide, by decide, by decide, by decide⟩
  intro cfg env k hk
  have h := runDayAux_safe cfg env (cfg.max_reentries + 1) 0 0 k hk
  simpa using h

/-- Witness for daily_loss_cap_blocks_attempts: attempt 1 of the concrete
scenario started with the running P&L above the cap. -/
theorem daily_loss_cap_blocks_attempts_witness :
    -cfgCapDemo.max_loss_per_day < sumFirstNets (runDay cfgCapDemo envCapDemo).trades 1 :=
  daily_loss_cap_blocks_attempts.1 cfgCapDemo envCapDemo 1 (by decide)

/- Sum of the first k per-attempt net P&L values supplied by the data
   environment. -/
def sumEnvNets (nets : Nat → Rat) (k : Nat) : Rat :=
  ((List.range k).map nets).sum

lemma sumEnvNets_succ (nets : Nat → Rat) (k : Nat) :
    sumEnvNets nets (k + 1) = sumEnvNets nets k + nets k := by
  unfold sumEnvNets
  rw [List.range_succ, List.map_append, List.sum_append]
  simp

lemma runDayAux_all_stoploss (cfg : StraddleConfig) (env : Nat → Option AttemptResult)
    (nets : Nat → Rat)
    (hEnv : ∀ i, i ≤ cfg.max_reentries →
      env i = some { net := nets i, reason := ExitReason.stopLoss, refetchOk := true })
    (hCap : ∀ k, k ≤ cfg.max_reentries → -cfg.max_loss_per_day < sumEnvNets nets k) :
    ∀ (fuel j : Nat), j + fuel = cfg.max_reentries + 1 → j ≤ cfg.max_reentries →
      (runDayAux cfg env fuel j (sumEnvNets nets j)).trades.length = fuel
      ∧ (runDayAux cfg env fuel j (sumEnvNets nets j)).cause
          = DayStop.reentryLimitReached := by
  intro fuel
  induction fuel with
  | zero =>
    intro j hj hle
    omega
  | succ fuel ih =>
    intro j hj hle
    unfold runDayAux
    rw [if_neg (not_le.mpr (hCap j hle)), hEnv j hle]
    dsimp only
    rw [if_neg (by simp)]
    rcases Nat.lt_or_ge j cfg.max_reentries with hlt | hge
    · rw [if_pos ⟨rfl, hlt⟩, if_pos rfl]
      dsimp only
      rw [← sumEnvNets_succ nets j]
      have hrec := ih (j + 1) (by omega) (by omega)
      constructor
      · rw [List.length_cons, hrec.1]
      · exact hrec.2
    · have hj0 : j = cfg.max_reentries := by omega
      have hfuel : fuel = 0 := by omega
      rw [if_neg (by
        rintro ⟨_, hcontra⟩
        omega)]
      subst hfuel
      exact ⟨rfl, rfl⟩

/-- C5: when every attempt of the day exits with StopLoss, the underlying
refetch always succeeds, and the accumulated P&L before each attempt stays
strictly above −max_loss_per_day, the day records exactly
max_reentries + 1 trades (the initial entry plus max_reentries re-entries)
and stops because the re-entry limit is reached. -/
theorem reentry_bound_trades :
    ∀ (cfg : StraddleConfig) (env : Nat → Option AttemptResult) (nets : Nat → Rat),
      (∀ i, i ≤ cfg.max_reentries →
        env i = some { net := nets i, reason := ExitReason.stopLoss, refetchOk := true }) →
      (∀ k, k ≤ cfg.max_reentries → -cfg.max_loss_per_day < sumEnvNets nets k) →
      (runDay cfg env).trades.length = cfg.max_reentries + 1
      ∧ (runDay cfg env).cause = DayStop.reentryLimitReached := by
  intro cfg env nets hEnv hCap
  have h := runDayAux_all_stoploss cfg env nets hEnv hCap (cfg.max_reentries + 1) 0
    (by omega) (by omega)
  unfold runDay
  rw [show (0 : Rat) = sumEnvNets nets 0 from rfl]
  exact h

/- Spec example for the re-entry bound: max_reentries = 2, each attempt a
   small stop-loss, cap never reached. -/
def cfgReentryDemo : StraddleConfig :=
  { cfgCombined with max_reentries := 2, max_loss_per_day := 5000 }

def envReentryDemo : Nat → Option AttemptResult :=
  fun _ => some { net := -100, reason := ExitReason.stopLoss, refetchOk := true }

/-- Witness for reentry_bound_trades: with max_reentries = 2 exactly 3
trades are recorded and the day ends at the re-entry limit. -/
theorem reentry_bound_trades_witness :
    (runDay cfgReentryDemo envReentryDemo).trades.length = 3
      ∧ (runDay cfgReentryDemo envReentryDemo).cause = DayStop.reentryLimitReached :=
  reentry_bound_trades cfgReentryDemo envReentryDemo (fun _ => -100)
    (fun _ _ => rfl)
    (fun k hk => by
      have hk2 : k ≤ 2 := hk
      interval_cases k <;> decide)

/- BacktestEngine.summary (src/main.py lines 243-261): trades are grouped by
   date (pandas groupby sorts the date keys ascending) and net P&L summed
   per date.  Dates are modelled as naturals ordered like the YYYY-MM-DD
   strings of the code. -/
def dailyNet (trades : List (Nat × Rat)) : List (Nat × Rat) :=
  (List.insertionSort (fun a b => a ≤ b) (trades.map Prod.fst).dedup).map
    (fun d => (d, ((trades.filter (fun t => t.1 == d)).map Prod.snd).sum))

/- The per-date net P&L series (the daily net_PnL column). -/
def dailyValues (trades : List (Nat × Rat)) : List Rat :=
  (dailyNet trades).map Prod.snd

/- total_pnl = daily net_PnL sum (line 257). -/
def totalPnl (l : List Rat) : Rat := l.sum

/- win_rate = (daily net_PnL > 0).mean() * 100 (line 259). -/
def winRate (l : List Rat) : Rat :=
  ((l.countP (fun x => decide (0 < x)) : Nat) : Rat) / (l.length : Rat) * 100

/- CumulativePnL = running sums of the daily net P&L (line 249). -/
def cumSums (acc : Rat) : List Rat → List Rat
  | [] => []
  | x :: xs => (acc + x) :: cumSums (acc + x) xs

def cumMaxes (m : Rat) : List Rat → List Rat
  | [] => []
  | x :: xs => max m x :: cumMaxes (max m x) xs

/- pandas cummax: the running maximum, seeded by the first element. -/
def runningMax (l : List Rat) : List Rat :=
  match l with
  | [] => []
  | x :: xs => x :: cumMaxes x xs

def listMax0 : List Rat → Rat
  | [] => 0
  | x :: xs => xs.foldl max x

/- max_dd = daily CumulativePnL cummax minus CumulativePnL, maximised
   (line 261). -/
def maxDrawdown (l : List Rat) : Rat :=
  let c := cumSums 0 l
  listMax0 (List.zipWith (fun a b => a - b) (runningMax c) c)

/-- C8: for every trade log whose per-date net P&L sums form the ordered
daily series [100, −50, 200], the aggregation yields total P&L 250, win
rate 2/3 × 100 = 200/3 (66.67 to the two decimals the engine prints), and
max drawdown 50 (the maximum over days of the running maximum of cumulative
daily P&L minus the cumulative daily P&L of the day). -/
theorem metrics_example_series :
    ∀ trades : List (Nat × Rat),
      dailyValues trades = [100, -50, 200] →
      totalPnl (dailyValues trades) = 250
      ∧ winRate (dailyValues trades) = 200 / 3
      ∧ (⌊winRate (dailyValues trades) * 100 + 1 / 2⌋ : Int) = 6667
      ∧ maxDrawdown (dailyValues trades) = 50 := by
  intro trades h
  rw [h]
  refine ⟨by decide, by decide, ?_, by decide⟩
  have hwr : winRate [100, -50, 200] = 200 / 3 := by decide
  rw [hwr]
  have h2 : (200 : Rat) / 3 * 100 + 1 / 2 = 40003 / 6 := by norm_num
  rw [h2]
  rw [Int.floor_eq_iff]
  constructor
  · norm_num
  · norm_num

/- A concrete trade log realizing the daily series: two trades on day 1
   summing to 100, one on each of days 2 and 3. -/
def tradesMetricsDemo : List (Nat × Rat) := [(1, 60), (1, 40), (2, -50), (3, 200)]

/-- Witness for metrics_example_series: the metrics of the concrete trade
log. -/
theorem metrics_example_series_witness :
    totalPnl (dailyValues tradesMetricsDemo) = 250
      ∧ winRate (dailyValues tradesMetricsDemo) = 200 / 3
      ∧ (⌊winRate (dailyValues tradesMetricsDemo) * 100 + 1 / 2⌋ : Int) = 6667
      ∧ maxDrawdown (dailyValues tradesMetricsDemo) = 50 :=
  metrics_example_series tradesMetricsDemo (by decide)
